import Mathlib

/-!
Verification development for the OllamaSummarizer repository.

The Python sources are shallowly embedded here:
* `decoderService.py` — `GeocodingService._is_coordinate_pair`,
  `_geocode_nominatim`, `get_coordinates`;
* `main.py` — `WeatherSummarizer._extract_json`, `parse_user_request`
  and the coordinate-resolution step of `run`.

Machine floats are modelled by exact rationals (`ℚ`): every numeric literal
the program handles is a plain decimal string, whose mathematical value is a
rational.  Python exceptions are modelled by `Except PyErr`; a `try/except`
block of the source becomes a `match` on the `Except` value.  External
effects (the Nominatim HTTP lookup, the chat model, `json.loads`) are
modelled as explicit parameters, so theorems can quantify over every
behaviour of the environment.
-/

/-! ## Character classes and basic string utilities -/

/-- The whitespace characters of Python's `str.strip` / the regex class
`\s` (restricted to ASCII, the only whitespace the program meets). -/
def isPySpace (c : Char) : Bool :=
  c = ' ' || c = '\t' || c = '\n' || c = '\r' || c = '\x0b' || c = '\x0c'

/-- The regex class `\d` (ASCII digits). -/
def isDigitC (c : Char) : Bool :=
  '0' ≤ c && c ≤ '9'

/-- The separator class `[,\s]` of the coordinate regex. -/
def isSepC (c : Char) : Bool :=
  c = ',' || isPySpace c

/-- Python `str.strip()`: drop leading and trailing whitespace. -/
def pystrip (cs : List Char) : List Char :=
  ((cs.dropWhile isPySpace).reverse.dropWhile isPySpace).reverse

/-- Python `str.lower()` (ASCII case folding suffices for the city names). -/
def lowerChars (cs : List Char) : List Char :=
  cs.map Char.toLower

/-- First index `i ≥ 0` of `hay` at which `needle` occurs, as
`str.find` restricted to a success/failure `Option` (Python's `-1` is
recovered by `pyFind` below). -/
def findFrom (needle : List Char) : List Char → Option Nat
  | [] => if needle.isEmpty then some 0 else none
  | c :: rest =>
    if needle.isPrefixOf (c :: rest) then some 0
    else (findFrom needle rest).map (· + 1)

/-- Python `hay.find(needle, start)` as an `Option Nat`. -/
def findSub (hay needle : List Char) (start : Nat) : Option Nat :=
  (findFrom needle (hay.drop start)).map (· + start)

/-- Python `hay.find(needle, start)` with the `-1` failure convention. -/
def pyFind (hay needle : List Char) (start : Nat) : Int :=
  match findSub hay needle start with
  | some n => (n : Int)
  | none => -1

/-- Index of the last occurrence of `needle` in the list, as
`str.rfind` restricted to a success/failure `Option`. -/
def rfindFrom (needle : List Char) : List Char → Option Nat
  | [] => if needle.isEmpty then some 0 else none
  | c :: rest =>
    match rfindFrom needle rest with
    | some i => some (i + 1)
    | none => if needle.isPrefixOf (c :: rest) then some 0 else none

/-- Python `hay.rfind(needle)` with the `-1` failure convention. -/
def pyRfind (hay needle : List Char) : Int :=
  match rfindFrom needle hay with
  | some n => (n : Int)
  | none => -1

/-- Python substring containment `needle in hay`. -/
def containsSub (hay needle : List Char) : Bool :=
  (findSub hay needle 0).isSome

/-- The slice `cs[i:j]` for natural indices: elements at positions
`i, …, j-1`. -/
def sliceN (cs : List Char) (i j : Nat) : List Char :=
  (cs.take j).drop i

/-- Python slice `cs[i:j]` on arbitrary integers: a negative bound counts
from the end and is clamped below by `0`; an upper bound beyond the length
needs no explicit clamp because `take`/`drop` already stop at the end. -/
def pySlice (cs : List Char) (i j : Int) : List Char :=
  sliceN cs
    (if i < 0 then (max ((cs.length : Int) + i) 0).toNat else i.toNat)
    (if j < 0 then (max ((cs.length : Int) + j) 0).toNat else j.toNat)

/-! ## Decimal values

`decVal` is the exact mathematical value of a decimal literal
(optional sign, integer digits, optional fractional digits); it is the
rational that Python's `float()` approximates on the strings this program
parses. -/

/-- Value of a digit string read in base ten. -/
def digitsVal (ds : List Char) : Nat :=
  ds.foldl (fun a c => 10 * a + (c.toNat - 48)) 0

/-- Value of the sign-free part `digits [. digits]` of a decimal literal. -/
def decValCore (r : List Char) : ℚ :=
  let ds := r.takeWhile isDigitC
  let fs := ((r.dropWhile isDigitC).drop 1).takeWhile isDigitC
  (digitsVal ds : ℚ) + (digitsVal fs : ℚ) / (10 ^ fs.length)

/-- Exact value of a decimal literal with an optional leading sign. -/
def decVal (cs : List Char) : ℚ :=
  match cs with
  | [] => 0
  | c :: r =>
    if c = '-' then - decValCore r
    else if c = '+' then decValCore r
    else decValCore (c :: r)

/-! ## The coordinate regex `^(-?\d+\.?\d*)[,\s]+(-?\d+\.?\d*)$`

`numSpan` consumes one group `-?\d+\.?\d*` greedily and returns the matched
characters together with the rest of the input; for this regex the greedy
parse coincides with the backtracking search, because a group can neither
end earlier (the next atom `[,\s]+` accepts no digit, dot or sign) nor
extend further.  `coordGroups` is the full anchored match, returning the
two capture groups. -/

/-- Shape test for one capture group `-?\d+\.?\d*` (whole-string match). -/
def numShapeCore (r : List Char) : Bool :=
  let ds := r.takeWhile isDigitC
  match r.dropWhile isDigitC with
  | [] => !ds.isEmpty
  | c :: fs => c = '.' && !ds.isEmpty && fs.all isDigitC

/-- Shape test for `-?\d+\.?\d*` including the optional sign. -/
def numShape (cs : List Char) : Bool :=
  match cs with
  | [] => false
  | c :: r => if c = '-' then numShapeCore r else numShapeCore (c :: r)

/-- Greedy parse of the sign-free part of one capture group. -/
def numSpanCore (r : List Char) : Option (List Char × List Char) :=
  if (r.takeWhile isDigitC).isEmpty then none
  else
    match r.dropWhile isDigitC with
    | '.' :: r3 =>
      some (r.takeWhile isDigitC ++ '.' :: r3.takeWhile isDigitC, r3.dropWhile isDigitC)
    | r2 => some (r.takeWhile isDigitC, r2)

/-- Greedy parse of one capture group `-?\d+\.?\d*`: the matched text and
the remaining input. -/
def numSpan (cs : List Char) : Option (List Char × List Char) :=
  match cs with
  | [] => none
  | c :: r =>
    if c = '-' then (numSpanCore r).map (fun p => ('-' :: p.1, p.2))
    else numSpanCore (c :: r)

/-- Anchored match of `^(-?\d+\.?\d*)[,\s]+(-?\d+\.?\d*)$`, returning the
two capture groups. -/
def coordGroups (cs : List Char) : Option (List Char × List Char) :=
  match numSpan cs with
  | none => none
  | some (g1, rest) =>
    if (rest.takeWhile isSepC).isEmpty then none
    else
      match numSpan (rest.dropWhile isSepC) with
      | none => none
      | some (g2, rest3) => if rest3.isEmpty then some (g1, g2) else none

/-! ## Python exceptions and `float()` -/

/-- The exception classes the program distinguishes: `ValueError`
(raised by `float()` on a malformed literal and caught in
`_is_coordinate_pair`) and every other exception. -/
inductive PyErr where
  | valueError : PyErr
  | exn : PyErr
deriving DecidableEq, Repr

/-- Shape accepted by our model of `float()`: an optional sign followed by
`digits`, `digits.digits`, `digits.` or `.digits`. -/
def floatShapeCore (r : List Char) : Bool :=
  match r.dropWhile isDigitC with
  | [] => !(r.takeWhile isDigitC).isEmpty
  | c :: fs => c = '.' && (!(r.takeWhile isDigitC).isEmpty || !fs.isEmpty) && fs.all isDigitC

/-- Shape accepted by our model of `float()`, including the sign. -/
def floatShape (cs : List Char) : Bool :=
  match cs with
  | [] => false
  | c :: r =>
    if c = '-' || c = '+' then floatShapeCore r else floatShapeCore (c :: r)

/-- Model of Python `float()` on plain decimal literals (the only inputs
this program feeds it): the exact rational value, or a `ValueError` on any
other string.  Exponent, infinity and NaN forms never arise here. -/
def pyFloat (cs : List Char) : Except PyErr ℚ :=
  if floatShape cs then .ok (decVal cs) else .error .valueError

/-! ## `GeocodingService._is_coordinate_pair` (decoderService.py 16–32) -/

/-- The cleaning step of `_is_coordinate_pair`:
`location.strip().replace('(', '').replace(')', '').strip()` — note that
`replace` removes parentheses everywhere, not only at the ends. -/
def cleanCode (cs : List Char) : List Char :=
  pystrip ((pystrip cs).filter (fun c => !(c = '(' || c = ')')))

/-- `_is_coordinate_pair` with its internal `try/except ValueError`
made explicit: the regex match produces the two groups, `float()` is
applied to each (a `ValueError` is caught and yields `None`), and the
pair is returned only when `-90 <= lat <= 90 and -180 <= lon <= 180`. -/
def is_coordinate_pairE (s : String) : Except PyErr (Option (ℚ × ℚ)) :=
  match coordGroups (cleanCode s.data) with
  | none => .ok none
  | some (g1, g2) =>
    match pyFloat g1 with
    | .error .valueError => .ok none
    | .error e => .error e
    | .ok lat =>
      match pyFloat g2 with
      | .error .valueError => .ok none
      | .error e => .error e
      | .ok lon =>
        .ok (if -90 ≤ lat ∧ lat ≤ 90 ∧ -180 ≤ lon ∧ lon ≤ 180
             then some (lat, lon) else none)

/-- `_is_coordinate_pair` as the total function it is (the lemma
`is_coordinate_pairE_ok` proves that no exception escapes). -/
def is_coordinate_pair (s : String) : Option (ℚ × ℚ) :=
  match is_coordinate_pairE s with
  | .ok v => v
  | .error _ => none

/-! ## `GeocodingService._geocode_nominatim` (decoderService.py 34–53)

The network is modelled by a `NetOutcome`: either some exception inside the
`try` block (transport error, timeout, non-2xx status, undecodable JSON
body), or a decoded result list whose entries carry the optional string
fields `lat` and `lon`. -/

/-- One element of the Nominatim result array; a missing field models a
payload without that key (its access raises, and is caught). -/
structure GeoEntry where
  lat : Option String
  lon : Option String

/-- Every behaviour of the live geocoding lookup: a raised exception, or a
decoded result list. -/
inductive NetOutcome where
  | raise : NetOutcome
  | results : List GeoEntry → NetOutcome

/-- The body of `_geocode_nominatim`'s `try` block: on a result list, an
empty list falls through to `return None`; otherwise the first entry's
`lat`/`lon` fields are fetched (a missing key raises) and passed to
`float()` (a malformed value raises). -/
def geocodeBody (o : NetOutcome) : Except PyErr (Option (ℚ × ℚ)) :=
  match o with
  | .raise => .error .exn
  | .results [] => .ok none
  | .results (e :: _) =>
    match e.lat, e.lon with
    | some slat, some slon =>
      match pyFloat slat.data, pyFloat slon.data with
      | .ok la, .ok lo => .ok (some (la, lo))
      | .error err, _ => .error err
      | _, .error err => .error err
    | _, _ => .error .exn

/-- `_geocode_nominatim`: the `except Exception` handler swallows every
exception of the body and the function returns `None` instead. -/
def geocode_nominatim (o : NetOutcome) : Option (ℚ × ℚ) :=
  match geocodeBody o with
  | .ok v => v
  | .error _ => none

/-! ## `GeocodingService.get_coordinates` (decoderService.py 55–95) -/

/-- The `major_cities` table, in its (insertion-order preserving)
iteration order. -/
def majorCities : List (String × (ℚ × ℚ)) :=
  [("london", (51.5074, -0.1278)),
   ("new york", (40.7128, -74.0060)),
   ("paris", (48.8566, 2.3522)),
   ("tokyo", (35.6762, 139.6503)),
   ("sydney", (-33.8688, 151.2093)),
   ("berlin", (52.5200, 13.4050)),
   ("madrid", (40.4168, -3.7038)),
   ("rome", (41.9028, 12.4964)),
   ("kyiv", (50.44973, 30.52474)),
   ("beijing", (39.9042, 116.4074))]

/-- The final fallback tiers of `get_coordinates`: the first table entry
whose city name is a substring of the lowercased location wins, and London
is the default when none matches. -/
def cityFallback (s : String) : ℚ × ℚ :=
  match majorCities.find? (fun e => containsSub (lowerChars s.data) e.1.data) with
  | some e => e.2
  | none => (51.5074, -0.1278)

/-- `get_coordinates` with exceptions explicit: coordinate-pair check
first, then the live lookup, then the city table, then London.  Tuples are
non-empty, so Python's `if coords:` is exactly `Option.isSome` here. -/
def get_coordinatesE (o : NetOutcome) (s : String) : Except PyErr (ℚ × ℚ) :=
  match is_coordinate_pairE s with
  | .error e => .error e
  | .ok (some p) => .ok p
  | .ok none =>
    match geocode_nominatim o with
    | some p => .ok p
    | none => .ok (cityFallback s)

/-! ## `WeatherSummarizer._extract_json` (main.py 156–176) -/

/-- The marked fence opener as characters. -/
def fenceJsonL : List Char := ['`', '`', '`', 'j', 's', 'o', 'n']

/-- The plain fence marker as characters. -/
def fence3L : List Char := ['`', '`', '`']

/-- The fence-removal step of `_extract_json`: if `"```json"` occurs, take
from just after it to the next `"```"` (Python's `find` returns `-1` when
there is none, so the slice then stops one character before the end);
otherwise if `"```"` occurs, the same with a 3-character marker; otherwise
keep the text.  The chosen slice is stripped. -/
def fencePy (cleaned : List Char) : List Char :=
  match findSub cleaned fenceJsonL 0 with
  | some i => pystrip (pySlice cleaned ((i : Int) + 7) (pyFind cleaned fence3L (i + 7)))
  | none =>
    match findSub cleaned fence3L 0 with
    | some i => pystrip (pySlice cleaned ((i : Int) + 3) (pyFind cleaned fence3L (i + 3)))
    | none => cleaned

/-- The brace-slicing step of `_extract_json`: `json_start = find('{')`,
`json_end = rfind('}') + 1`, and the slice is taken only under
`json_start >= 0 and json_end > json_start` (`find` of a `{` succeeding is
exactly `json_start >= 0`). -/
def bracePy (cleaned : List Char) : List Char :=
  match findSub cleaned ['{'] 0 with
  | some i =>
    if (i : Int) < pyRfind cleaned ['}'] + 1
    then pySlice cleaned (i : Int) (pyRfind cleaned ['}'] + 1) else cleaned
  | none => cleaned

/-- `_extract_json` on the character list of the reply. -/
def extractJson (cs : List Char) : List Char :=
  bracePy (fencePy (pystrip cs))

/-- `WeatherSummarizer._extract_json`. -/
def extract_json (s : String) : String :=
  String.mk (extractJson s.data)

/-! ## Specification-side view of `_extract_json`

These definitions restate the spec's description of the parser — candidate
selection, then an inclusive first-`{` … last-`}` slice — using only
total natural-number indexing; the claim theorems compare them with the
embedded code above. -/

/-- The candidate text of the spec: between the fence markers when the
marked (or any) fence is present and closed, the whole text otherwise.
The value on an unclosed fence is immaterial (claims about that case use
the code-side function). -/
def specCandidate (c : List Char) : List Char :=
  match findSub c fenceJsonL 0 with
  | some i =>
    match findSub c fence3L (i + 7) with
    | some j => pystrip (sliceN c (i + 7) j)
    | none => []
  | none =>
    match findSub c fence3L 0 with
    | some i =>
      match findSub c fence3L (i + 3) with
      | some j => pystrip (sliceN c (i + 3) j)
      | none => []
    | none => c

/-- Every fence opener that the candidate selection commits to has a
closing marker (vacuously true without fences). -/
def fenceClosedOk (c : List Char) : Bool :=
  match findSub c fenceJsonL 0 with
  | some i => (findSub c fence3L (i + 7)).isSome
  | none =>
    match findSub c fence3L 0 with
    | some i => (findSub c fence3L (i + 3)).isSome
    | none => true

/-- The brace step in natural-number form: the inclusive slice from the
first `{` to the last `}` when both exist in that order, the unchanged
text otherwise. -/
def braceStep (c : List Char) : List Char :=
  match findSub c ['{'] 0, rfindFrom ['}'] c with
  | some i, some j => if i ≤ j then sliceN c i (j + 1) else c
  | _, _ => c

/-! ## `WeatherSummarizer.parse_user_request` (main.py 102–154) and the
coordinate-resolution step of `run` (main.py 254–262)

The chat model is a function from the user input to its reply, and
`json.loads` plus the dictionary field accesses are a function `dec` from
the extracted text to an optional decoded request (`none` models
`json.JSONDecodeError`; an absent field models an absent key). -/

/-- The decoded request dictionary: every field the program reads,
each possibly absent. -/
structure ParsedRequest where
  location : Option String
  latitude : Option ℚ
  longitude : Option ℚ
  weather_type : Option String
  specific_requirements : Option String
  raw_response : Option String
deriving DecidableEq, Repr

/-- The label `f"{coords[0]}, {coords[1]}"` of the direct-coordinate path.
It abstracts Python float formatting; no verified claim depends on the
exact rendering. -/
def coordLabel (la lo : ℚ) : String :=
  toString la ++ ", " ++ toString lo

/-- `parse_user_request`: the direct-coordinate dictionary when
`_is_coordinate_pair` matches the raw input, otherwise the decoded LLM
reply, falling back on decode failure to the fixed dictionary that keeps
the user's text and the raw reply. -/
def parse_user_request (dec : String → Option ParsedRequest)
    (llm : String → String) (user : String) : ParsedRequest :=
  match is_coordinate_pair user with
  | some (la, lo) =>
    { location := some (coordLabel la lo)
      latitude := some la
      longitude := some lo
      weather_type := some ("current")
      specific_requirements := some ("weather information for coordinates")
      raw_response := none }
  | none =>
    let response := llm user
    match dec (extract_json response) with
    | some pr => pr
    | none =>
      { location := some ("unknown")
        latitude := none
        longitude := none
        weather_type := some ("current")
        specific_requirements := some user
        raw_response := some response }

/-- Python truthiness of `parsed_request.get('latitude')`: an absent key
gives `None` (falsy), and the number `0.0` is falsy as well. -/
def pyTruthyQ : Option ℚ → Bool
  | none => false
  | some q => decide (q ≠ 0)

/-- The resolution step of `run`: when
`not parsed_request.get('latitude') or not parsed_request.get('longitude')`,
geocode `parsed_request.get('location', 'London')` and fill both fields;
an exception of the geocoder would propagate (none occurs). -/
def resolveStep (o : NetOutcome) (pr : ParsedRequest) : Except PyErr ParsedRequest :=
  if !pyTruthyQ pr.latitude || !pyTruthyQ pr.longitude then
    match get_coordinatesE o (pr.location.getD ("London")) with
    | .ok (la, lo) => .ok { pr with latitude := some la, longitude := some lo }
    | .error e => .error e
  else .ok pr

/-! ## Specification-side view of `_is_coordinate_pair`

`CoordPatternDecl` states the spec's pattern as a declarative
decomposition of the cleaned text, independent of the greedy matcher:
a signed decimal, a non-empty block of separators, a signed decimal,
with nothing before or after. -/

/-- Declarative reading of the claimed pattern: the text splits as
`number ⬝ separators ⬝ number` with the stated values. -/
def CoordPatternDecl (cs : List Char) (la lo : ℚ) : Prop :=
  ∃ n1 sp n2, cs = n1 ++ sp ++ n2 ∧
    numShape n1 = true ∧ sp ≠ [] ∧ (∀ c ∈ sp, isSepC c = true) ∧
    numShape n2 = true ∧ la = decVal n1 ∧ lo = decVal n2

/-- Cleaning as the claim words it: strip whitespace and parentheses from
the two ends only (the code instead removes parentheses everywhere). -/
def cleanSurround (cs : List Char) : List Char :=
  let p := fun c => isPySpace c || c = '(' || c = ')'
  ((cs.dropWhile p).reverse.dropWhile p).reverse

/-- Sign/body split of a decimal literal (proof-side helper used to
evaluate `decVal` on concrete inputs). -/
def decSplit (cs : List Char) : Bool × List Char :=
  match cs with
  | [] => (false, [])
  | c :: r => if c = '-' then (true, r) else if c = '+' then (false, r) else (false, c :: r)

/-- Concrete decoded request used to exercise the resolution step: both
coordinates present, latitude exactly `0` (the equator). -/
def zeroLatRequest : ParsedRequest :=
  { location := some ("paris"), latitude := some (0 : ℚ),
    longitude := some (10 : ℚ), weather_type := some ("current"),
    specific_requirements := some ("x"), raw_response := none }

/-- Concrete decoded request with both coordinates present and non-zero. -/
def plainRequest : ParsedRequest :=
  { location := some ("anywhere"), latitude := some (1 : ℚ),
    longitude := some (2 : ℚ), weather_type := some ("current"),
    specific_requirements := some ("x"), raw_response := none }

/-! ## A fragment of JSON syntax

Enough of the JSON grammar to exhibit genuine bare JSON objects as inputs
of `_extract_json`: values are null, booleans, integers, strings (with the
mandatory escaping of quote and backslash), arrays and objects. -/

mutual

/-- JSON values. -/
inductive JsonVal : Type where
  | jnull : JsonVal
  | jbool : Bool → JsonVal
  | jint : Int → JsonVal
  | jstr : String → JsonVal
  | jarr : JsonArr → JsonVal
  | jobj : JsonMembers → JsonVal

/-- The element list of a JSON array. -/
inductive JsonArr : Type where
  | nil : JsonArr
  | cons : JsonVal → JsonArr → JsonArr

/-- The member list of a JSON object. -/
inductive JsonMembers : Type where
  | nil : JsonMembers
  | cons : String → JsonVal → JsonMembers → JsonMembers

end

/-- JSON string escaping for one character (quote and backslash; the
control characters do not occur in the strings used here). -/
def escChar (c : Char) : List Char :=
  if c = '"' then ['\\', '"'] else if c = '\\' then ['\\', '\\'] else [c]

/-- JSON string escaping. -/
def escChars (cs : List Char) : List Char :=
  cs.foldr (fun c acc => escChar c ++ acc) []

/-- A JSON string literal with its quotes. -/
def renderStr (s : String) : List Char :=
  '"' :: escChars s.data ++ ['"']

mutual

/-- Canonical (whitespace-free) rendering of a JSON value. -/
def renderJ : JsonVal → List Char
  | .jnull => ['n', 'u', 'l', 'l']
  | .jbool true => ['t', 'r', 'u', 'e']
  | .jbool false => ['f', 'a', 'l', 's', 'e']
  | .jint n => (toString n).data
  | .jstr s => renderStr s
  | .jarr xs => '[' :: renderArr xs ++ [']']
  | .jobj ms => '{' :: renderMembers ms ++ ['}']

/-- Rendering of the comma-separated elements of an array. -/
def renderArr : JsonArr → List Char
  | .nil => []
  | .cons x .nil => renderJ x
  | .cons x xs => renderJ x ++ ',' :: renderArr xs

/-- Rendering of the comma-separated members of an object. -/
def renderMembers : JsonMembers → List Char
  | .nil => []
  | .cons k v .nil => renderStr k ++ ':' :: renderJ v
  | .cons k v ms => renderStr k ++ ':' :: renderJ v ++ ',' :: renderMembers ms

end

/-- The rendered text of a bare JSON object. -/
def renderObj (ms : JsonMembers) : String :=
  String.mk (renderJ (.jobj ms))

/-! ## List toolbox -/

theorem takeWhile_append_all (p : Char → Bool) (l r : List Char)
    (hl : ∀ c ∈ l, p c = true) (hr : ∀ c, r.head? = some c → p c = false) :
    (l ++ r).takeWhile p = l := by
  induction l with
  | nil =>
    cases r with
    | nil => rfl
    | cons c t => simp [List.takeWhile_cons, hr c rfl]
  | cons c t ih =>
    simp only [List.cons_append, List.takeWhile_cons, hl c (List.mem_cons_self c t),
      if_true]
    rw [ih (fun x hx => hl x (List.mem_cons_of_mem _ hx))]

theorem dropWhile_append_all (p : Char → Bool) (l r : List Char)
    (hl : ∀ c ∈ l, p c = true) (hr : ∀ c, r.head? = some c → p c = false) :
    (l ++ r).dropWhile p = r := by
  induction l with
  | nil =>
    cases r with
    | nil => rfl
    | cons c t => simp [List.dropWhile_cons, hr c rfl]
  | cons c t ih =>
    simp only [List.cons_append, List.dropWhile_cons, hl c (List.mem_cons_self c t),
      if_true]
    exact ih (fun x hx => hl x (List.mem_cons_of_mem _ hx))

theorem head_dropWhile_false (p : Char → Bool) (l : List Char) :
    ∀ c, (l.dropWhile p).head? = some c → p c = false := by
  induction l with
  | nil => intro c h; simp at h
  | cons a t ih =>
    intro c h
    by_cases ha : p a = true
    · rw [List.dropWhile_cons_of_pos ha] at h
      exact ih c h
    · rw [List.dropWhile_cons_of_neg ha] at h
      simp only [List.head?_cons, Option.some.injEq] at h
      rw [← h]
      exact Bool.not_eq_true _ ▸ (by simpa using ha)

theorem mem_takeWhile_true (p : Char → Bool) (l : List Char) :
    ∀ c ∈ l.takeWhile p, p c = true :=
  fun _ hc => List.mem_takeWhile_imp hc

theorem isPrefixOf_exists (l r : List Char) :
    l.isPrefixOf r = true ↔ ∃ t, r = l ++ t := by
  induction l generalizing r with
  | nil => simp [List.isPrefixOf]
  | cons a l ih =>
    cases r with
    | nil => simp [List.isPrefixOf]
    | cons b r =>
      simp only [List.isPrefixOf, Bool.and_eq_true, beq_iff_eq, ih, List.cons_append,
        List.cons.injEq]
      constructor
      · rintro ⟨hab, t, ht⟩; exact ⟨t, hab.symm, ht⟩
      · rintro ⟨t, hab, ht⟩; exact ⟨hab.symm, t, ht⟩

/-! ## Character-class facts -/

theorem sep_not_num (c : Char) (h : isSepC c = true) : isDigitC c = false ∧ c ≠ '.' := by
  have h7 : c = ',' ∨ c = ' ' ∨ c = '\t' ∨ c = '\n' ∨ c = '\r' ∨ c = '\x0b' ∨ c = '\x0c' := by
    simpa [isSepC, isPySpace, or_assoc] using h
  rcases h7 with h | h | h | h | h | h | h <;> subst h <;> exact ⟨by decide, by decide⟩

theorem digit_not_sep (c : Char) (h : isDigitC c = true) : isSepC c = false := by
  by_contra hc
  have hs : isSepC c = true := by
    cases hcc : isSepC c
    · exact absurd hcc hc
    · rfl
  exact absurd h (by simp [(sep_not_num c hs).1])

theorem digit_not_signs (c : Char) (h : isDigitC c = true) :
    c ≠ '-' ∧ c ≠ '+' ∧ c ≠ '.' := by
  simp only [isDigitC, Bool.and_eq_true, decide_eq_true_eq] at h
  refine ⟨?_, ?_, ?_⟩ <;> rintro rfl <;> exact absurd h (by decide)

/-! ## Structure of one regex capture group -/

theorem numShapeCore_iff (r : List Char) :
    numShapeCore r = true ↔
      ∃ ds fs, ds ≠ [] ∧ (∀ c ∈ ds, isDigitC c = true) ∧ (∀ c ∈ fs, isDigitC c = true) ∧
        (r = ds ++ '.' :: fs ∨ (r = ds ∧ fs = [])) := by
  constructor
  · intro h
    unfold numShapeCore at h
    rcases hd : r.dropWhile isDigitC with _ | ⟨c, fs⟩ <;> rw [hd] at h
    · refine ⟨r.takeWhile isDigitC, [], ?_, mem_takeWhile_true _ r, by simp, ?_⟩
      · simpa [List.isEmpty_iff] using h
      · right
        refine ⟨?_, rfl⟩
        conv_lhs => rw [← List.takeWhile_append_dropWhile isDigitC r]
        rw [hd, List.append_nil]
    · simp only [Bool.and_eq_true, decide_eq_true_eq] at h
      obtain ⟨⟨hc, hds⟩, hfs⟩ := h
      refine ⟨r.takeWhile isDigitC, fs, by simpa [List.isEmpty_iff] using hds,
        mem_takeWhile_true _ r, List.all_eq_true.mp hfs, .inl ?_⟩
      conv_lhs => rw [← List.takeWhile_append_dropWhile isDigitC r]
      rw [hd, hc]
  · rintro ⟨ds, fs, hne, hds, hfs, hsplit | ⟨hsplit, -⟩⟩
    · have hdot : ∀ x, ('.' :: fs).head? = some x → isDigitC x = false := by
        intro x hx
        simp only [List.head?_cons, Option.some.injEq] at hx
        subst hx; decide
      rw [hsplit]
      unfold numShapeCore
      rw [dropWhile_append_all _ _ _ hds hdot, takeWhile_append_all _ _ _ hds hdot]
      simp [List.isEmpty_iff, hne, List.all_eq_true.mpr hfs]
    · rw [hsplit]
      unfold numShapeCore
      have h1 : ds.takeWhile isDigitC = ds := by
        have := takeWhile_append_all isDigitC ds [] hds (by intro c hc; simp at hc)
        simpa using this
      have h2 : ds.dropWhile isDigitC = [] := by
        have := dropWhile_append_all isDigitC ds [] hds (by intro c hc; simp at hc)
        simpa using this
      rw [h1, h2]
      simpa [List.isEmpty_iff] using hne

theorem numSpanCore_empty (r : List Char) (h : (r.takeWhile isDigitC).isEmpty = true) :
    numSpanCore r = none := by
  unfold numSpanCore
  rw [if_pos h]

theorem numSpanCore_dot (r r3 : List Char)
    (hne : (r.takeWhile isDigitC).isEmpty = false)
    (hd : r.dropWhile isDigitC = '.' :: r3) :
    numSpanCore r =
      some (r.takeWhile isDigitC ++ '.' :: r3.takeWhile isDigitC, r3.dropWhile isDigitC) := by
  unfold numSpanCore
  rw [if_neg (by simp [hne]), hd]
  rfl

theorem numSpanCore_nil (r : List Char)
    (hne : (r.takeWhile isDigitC).isEmpty = false)
    (hd : r.dropWhile isDigitC = []) :
    numSpanCore r = some (r.takeWhile isDigitC, []) := by
  unfold numSpanCore
  rw [if_neg (by simp [hne]), hd]

theorem numSpanCore_nodot (r : List Char) (c : Char) (t : List Char)
    (hne : (r.takeWhile isDigitC).isEmpty = false)
    (hd : r.dropWhile isDigitC = c :: t) (hc : c ≠ '.') :
    numSpanCore r = some (r.takeWhile isDigitC, c :: t) := by
  unfold numSpanCore
  rw [if_neg (by simp [hne]), hd]
  split
  · rename_i r3 heq
    rw [List.cons.injEq] at heq
    exact absurd heq.1 hc
  · rfl

theorem numSpanCore_sound (r n rest : List Char) (h : numSpanCore r = some (n, rest)) :
    r = n ++ rest ∧ numShapeCore n = true := by
  rcases hne : (r.takeWhile isDigitC).isEmpty with _ | _
  · rcases hd : r.dropWhile isDigitC with _ | ⟨c, t⟩
    · rw [numSpanCore_nil r hne hd] at h
      simp only [Option.some.injEq, Prod.mk.injEq] at h
      obtain ⟨hn, hrest⟩ := h
      constructor
      · rw [← hn, ← hrest, List.append_nil]
        conv_lhs => rw [← List.takeWhile_append_dropWhile isDigitC r]
        rw [hd, List.append_nil]
      · rw [← hn, numShapeCore_iff]
        exact ⟨r.takeWhile isDigitC, [], by simpa [List.isEmpty_iff] using hne,
          mem_takeWhile_true _ r, by simp, .inr ⟨rfl, rfl⟩⟩
    · by_cases hc : c = '.'
      · subst hc
        rw [numSpanCore_dot r t hne hd] at h
        simp only [Option.some.injEq, Prod.mk.injEq] at h
        obtain ⟨hn, hrest⟩ := h
        constructor
        · rw [← hn, ← hrest]
          conv_lhs => rw [← List.takeWhile_append_dropWhile isDigitC r]
          rw [hd]
          conv_lhs => rw [← List.takeWhile_append_dropWhile isDigitC t]
          simp [List.append_assoc]
        · rw [← hn, numShapeCore_iff]
          exact ⟨r.takeWhile isDigitC, t.takeWhile isDigitC,
            by simpa [List.isEmpty_iff] using hne, mem_takeWhile_true _ r,
            mem_takeWhile_true _ t, .inl rfl⟩
      · rw [numSpanCore_nodot r c t hne hd hc] at h
        simp only [Option.some.injEq, Prod.mk.injEq] at h
        obtain ⟨hn, hrest⟩ := h
        constructor
        · rw [← hn, ← hrest, ← hd]
          exact (List.takeWhile_append_dropWhile isDigitC r).symm
        · rw [← hn, numShapeCore_iff]
          exact ⟨r.takeWhile isDigitC, [], by simpa [List.isEmpty_iff] using hne,
            mem_takeWhile_true _ r, by simp, .inr ⟨rfl, rfl⟩⟩
  · rw [numSpanCore_empty r hne] at h
    exact absurd h (by simp)

theorem numShapeCore_head_digit (n : List Char) (h : numShapeCore n = true) :
    ∃ d t, n = d :: t ∧ isDigitC d = true := by
  rw [numShapeCore_iff] at h
  obtain ⟨ds, fs, hne, hds, -, hsplit | ⟨hsplit, -⟩⟩ := h
  · rcases ds with _ | ⟨d, t⟩
    · exact absurd rfl hne
    · exact ⟨d, t ++ '.' :: fs, by simp [hsplit], hds d (List.mem_cons_self d t)⟩
  · rcases ds with _ | ⟨d, t⟩
    · exact absurd rfl hne
    · exact ⟨d, t, hsplit, hds d (List.mem_cons_self d t)⟩

theorem numShape_of_core (n : List Char) (h : numShapeCore n = true) :
    numShape n = true := by
  obtain ⟨d, t, rfl, hd⟩ := numShapeCore_head_digit n h
  show (if d = '-' then numShapeCore t else numShapeCore (d :: t)) = true
  rw [if_neg]
  · exact h
  · rintro rfl
    exact absurd hd (by decide)

theorem numSpan_sound (cs n rest : List Char) (h : numSpan cs = some (n, rest)) :
    cs = n ++ rest ∧ numShape n = true := by
  unfold numSpan at h
  split at h
  · exact absurd h (by simp)
  · rename_i c r
    split at h
    · rename_i hc
      subst hc
      rcases hmap : numSpanCore r with _ | ⟨⟨n0, rest0⟩⟩ <;> rw [hmap] at h
      · exact absurd h (by simp)
      · simp only [Option.map_some', Option.some.injEq, Prod.mk.injEq] at h
        obtain ⟨hn, hrest⟩ := h
        obtain ⟨hr, hshape⟩ := numSpanCore_sound r n0 rest0 hmap
        constructor
        · rw [← hn, ← hrest, hr]
          rfl
        · rw [← hn]
          unfold numShape
          simpa using hshape
    · obtain ⟨hr, hshape⟩ := numSpanCore_sound (c :: r) n rest h
      exact ⟨hr, numShape_of_core n hshape⟩

theorem numSpanCore_complete (n rest : List Char) (h : numShapeCore n = true)
    (hrest : ∀ c, rest.head? = some c → isDigitC c = false ∧ c ≠ '.') :
    numSpanCore (n ++ rest) = some (n, rest) := by
  rw [numShapeCore_iff] at h
  obtain ⟨ds, fs, hne, hds, hfs, hsplit | ⟨hsplit, -⟩⟩ := h
  · subst hsplit
    have hr : (ds ++ '.' :: fs) ++ rest = ds ++ '.' :: (fs ++ rest) := by simp
    rw [hr]
    have hdot : ∀ x, ('.' :: (fs ++ rest)).head? = some x → isDigitC x = false := by
      intro x hx
      simp only [List.head?_cons, Option.some.injEq] at hx
      subst hx; decide
    have htw := takeWhile_append_all isDigitC ds ('.' :: (fs ++ rest)) hds hdot
    have hdw := dropWhile_append_all isDigitC ds ('.' :: (fs ++ rest)) hds hdot
    have hemp : ((ds ++ '.' :: (fs ++ rest)).takeWhile isDigitC).isEmpty = false := by
      rw [htw]
      rcases ds with _ | ⟨d, t⟩
      · exact absurd rfl hne
      · rfl
    rw [numSpanCore_dot _ (fs ++ rest) hemp hdw, htw,
      takeWhile_append_all isDigitC fs rest hfs (fun c hc => (hrest c hc).1),
      dropWhile_append_all isDigitC fs rest hfs (fun c hc => (hrest c hc).1)]
  · subst hsplit
    have htw := takeWhile_append_all isDigitC n rest hds (fun c hc => (hrest c hc).1)
    have hdw := dropWhile_append_all isDigitC n rest hds (fun c hc => (hrest c hc).1)
    have hemp : ((n ++ rest).takeWhile isDigitC).isEmpty = false := by
      rw [htw]
      rcases n with _ | ⟨d, t⟩
      · exact absurd rfl hne
      · rfl
    rcases rest with _ | ⟨c, t⟩
    · rw [numSpanCore_nil (n ++ []) hemp hdw, htw]
    · rw [numSpanCore_nodot (n ++ c :: t) c t hemp hdw (hrest c rfl).2, htw]

theorem numSpan_complete (n rest : List Char) (h : numShape n = true)
    (hrest : ∀ c, rest.head? = some c → isDigitC c = false ∧ c ≠ '.') :
    numSpan (n ++ rest) = some (n, rest) := by
  rcases n with _ | ⟨d, t⟩
  · simp [numShape] at h
  · by_cases hd : d = '-'
    · subst hd
      have hcore : numShapeCore t = true := by
        have he : numShape ('-' :: t) = numShapeCore t := by
          show (if ('-' : Char) = '-' then numShapeCore t else numShapeCore ('-' :: t)) = _
          rw [if_pos rfl]
        rw [he] at h
        exact h
      have he2 : numSpan ('-' :: (t ++ rest)) =
          (numSpanCore (t ++ rest)).map (fun p => ('-' :: p.1, p.2)) := by
        show (if ('-' : Char) = '-' then (numSpanCore (t ++ rest)).map (fun p => ('-' :: p.1, p.2))
          else numSpanCore ('-' :: (t ++ rest))) = _
        rw [if_pos rfl]
      rw [List.cons_append, he2, numSpanCore_complete t rest hcore hrest]
      rfl
    · have hcore : numShapeCore (d :: t) = true := by
        have he : numShape (d :: t) = numShapeCore (d :: t) := by
          show (if d = '-' then numShapeCore t else numShapeCore (d :: t)) = _
          rw [if_neg hd]
        rw [he] at h
        exact h
      have he2 : numSpan ((d :: t) ++ rest) = numSpanCore ((d :: t) ++ rest) := by
        show (if d = '-' then (numSpanCore (t ++ rest)).map (fun p => ('-' :: p.1, p.2))
          else numSpanCore (d :: (t ++ rest))) = _
        rw [if_neg hd]
        rfl
      rw [he2, numSpanCore_complete (d :: t) rest hcore hrest]

theorem numShape_head (n : List Char) (h : numShape n = true) :
    ∃ d t, n = d :: t ∧ (d = '-' ∨ isDigitC d = true) := by
  rcases n with _ | ⟨d, t⟩
  · simp [numShape] at h
  · by_cases hd : d = '-'
    · exact ⟨d, t, rfl, .inl hd⟩
    · have he : numShape (d :: t) = numShapeCore (d :: t) := by
        show (if d = '-' then numShapeCore t else numShapeCore (d :: t)) = _
        rw [if_neg hd]
      rw [he] at h
      obtain ⟨d', t', heq, hdig⟩ := numShapeCore_head_digit _ h
      rw [List.cons.injEq] at heq
      exact ⟨d, t, rfl, .inr (heq.1 ▸ hdig)⟩

theorem numShape_head_not_sep (n : List Char) (h : numShape n = true) :
    ∀ c, n.head? = some c → isSepC c = false := by
  obtain ⟨d, t, rfl, hcase⟩ := numShape_head n h
  intro c hc
  have hdc : d = c := by simpa using hc
  subst hdc
  rcases hcase with hd | hd
  · rw [hd]
    decide
  · exact digit_not_sep d hd

theorem coordGroups_none (cs : List Char) (hs : numSpan cs = none) :
    coordGroups cs = none := by
  unfold coordGroups
  rw [hs]

theorem coordGroups_eq (cs g1 rest : List Char) (hs : numSpan cs = some (g1, rest)) :
    coordGroups cs =
      if (rest.takeWhile isSepC).isEmpty then none
      else
        match numSpan (rest.dropWhile isSepC) with
        | none => none
        | some (g2, rest3) => if rest3.isEmpty then some (g1, g2) else none := by
  unfold coordGroups
  rw [hs]

theorem coordGroups_eq_some_iff (cs g1 g2 : List Char) :
    coordGroups cs = some (g1, g2) ↔
      ∃ sp, cs = g1 ++ sp ++ g2 ∧ numShape g1 = true ∧ sp ≠ [] ∧
        (∀ c ∈ sp, isSepC c = true) ∧ numShape g2 = true := by
  constructor
  · intro h
    rcases hs : numSpan cs with _ | ⟨⟨g1x, rest⟩⟩
    · rw [coordGroups_none cs hs] at h
      exact absurd h (by simp)
    · rcases hemp : (rest.takeWhile isSepC).isEmpty with _ | _
      · rcases hs2 : numSpan (rest.dropWhile isSepC) with _ | ⟨⟨g2x, rest3⟩⟩
        · have hnone : coordGroups cs = none := by
            rw [coordGroups_eq cs g1x rest hs, if_neg (by simp [hemp]), hs2]
          rw [hnone] at h
          exact absurd h (by simp)
        · rcases hr3 : rest3.isEmpty with _ | _
          · have hnone : coordGroups cs = none := by
              rw [coordGroups_eq cs g1x rest hs, if_neg (by simp [hemp]), hs2]
              show (if rest3.isEmpty = true then some (g1x, g2x) else none) = none
              rw [hr3]
              simp
            rw [hnone] at h
            exact absurd h (by simp)
          · have hcg : coordGroups cs = some (g1x, g2x) := by
              rw [coordGroups_eq cs g1x rest hs, if_neg (by simp [hemp]), hs2]
              show (if rest3.isEmpty = true then some (g1x, g2x) else none) = some (g1x, g2x)
              rw [hr3]
              simp
            rw [hcg] at h
            simp only [Option.some.injEq, Prod.mk.injEq] at h
            obtain ⟨h1, h2⟩ := h
            rw [List.isEmpty_iff] at hr3
            subst hr3
            rw [h1] at hs
            rw [h2] at hs2
            obtain ⟨hcs, hsh1⟩ := numSpan_sound cs g1 rest hs
            obtain ⟨hrest2, hsh2⟩ := numSpan_sound _ g2 [] hs2
            rw [List.append_nil] at hrest2
            refine ⟨rest.takeWhile isSepC, ?_, hsh1, ?_, mem_takeWhile_true _ rest, hsh2⟩
            · rw [hcs, List.append_assoc, ← hrest2]
              rw [List.takeWhile_append_dropWhile]
            · intro hsp
              rw [← List.isEmpty_iff] at hsp
              rw [hsp] at hemp
              exact absurd hemp (by simp)
      · have hnone : coordGroups cs = none := by
          rw [coordGroups_eq cs g1x rest hs, if_pos hemp]
        rw [hnone] at h
        exact absurd h (by simp)
  · rintro ⟨sp, rfl, h1, hne, hsp, h2⟩
    have hheadsp : ∀ c, (sp ++ g2).head? = some c → isDigitC c = false ∧ c ≠ '.' := by
      intro c hc
      rcases sp with _ | ⟨s0, st⟩
      · exact absurd rfl hne
      · simp only [List.cons_append, List.head?_cons, Option.some.injEq] at hc
        subst hc
        exact sep_not_num s0 (hsp s0 (List.mem_cons_self s0 st))
    have hspan1 : numSpan (g1 ++ (sp ++ g2)) = some (g1, sp ++ g2) :=
      numSpan_complete g1 (sp ++ g2) h1 hheadsp
    have hg2head : ∀ c, g2.head? = some c → isSepC c = false := numShape_head_not_sep g2 h2
    have htw := takeWhile_append_all isSepC sp g2 hsp hg2head
    have hdw := dropWhile_append_all isSepC sp g2 hsp hg2head
    have hspan2 : numSpan (g2 ++ []) = some (g2, []) :=
      numSpan_complete g2 [] h2 (by intro c hc; simp at hc)
    rw [List.append_nil] at hspan2
    have hassoc : g1 ++ sp ++ g2 = g1 ++ (sp ++ g2) := by
      rw [List.append_assoc]
    have hspemp : sp.isEmpty = false := by
      rcases sp with _ | ⟨s0, st⟩
      · exact absurd rfl hne
      · rfl
    rw [hassoc, coordGroups_eq _ g1 (sp ++ g2) hspan1, htw, hdw,
      if_neg (by simp [hspemp]), hspan2]
    rfl

/-! ## `float()` on matched groups -/

theorem floatShapeCore_of_core (r : List Char) (h : numShapeCore r = true) :
    floatShapeCore r = true := by
  rw [numShapeCore_iff] at h
  obtain ⟨ds, fs, hne, hds, hfs, hsplit | ⟨hsplit, -⟩⟩ := h
  · rw [hsplit]
    have hdot : ∀ x, ('.' :: fs).head? = some x → isDigitC x = false := by
      intro x hx
      simp only [List.head?_cons, Option.some.injEq] at hx
      subst hx; decide
    unfold floatShapeCore
    rw [dropWhile_append_all _ _ _ hds hdot, takeWhile_append_all _ _ _ hds hdot]
    simp [List.isEmpty_iff, hne, List.all_eq_true.mpr hfs]
  · rw [hsplit]
    have h1 : ds.takeWhile isDigitC = ds := by
      have := takeWhile_append_all isDigitC ds [] hds (by intro c hc; simp at hc)
      simpa using this
    have h2 : ds.dropWhile isDigitC = [] := by
      have := dropWhile_append_all isDigitC ds [] hds (by intro c hc; simp at hc)
      simpa using this
    unfold floatShapeCore
    rw [h1, h2]
    simpa [List.isEmpty_iff] using hne

theorem floatShape_of_numShape (n : List Char) (h : numShape n = true) :
    floatShape n = true := by
  rcases n with _ | ⟨d, t⟩
  · simp [numShape] at h
  · by_cases hd : d = '-'
    · subst hd
      have hcore : numShapeCore t = true := by
        have he : numShape ('-' :: t) = numShapeCore t := by
          show (if ('-' : Char) = '-' then numShapeCore t else numShapeCore ('-' :: t)) = _
          rw [if_pos rfl]
        rw [he] at h
        exact h
      show (if (('-' : Char) = '-' || ('-' : Char) = '+') = true then floatShapeCore t
        else floatShapeCore ('-' :: t)) = true
      rw [if_pos (by decide)]
      exact floatShapeCore_of_core t hcore
    · have he : numShape (d :: t) = numShapeCore (d :: t) := by
        show (if d = '-' then numShapeCore t else numShapeCore (d :: t)) = _
        rw [if_neg hd]
      rw [he] at h
      have hdig : isDigitC d = true := by
        obtain ⟨d', t', heq, hdig⟩ := numShapeCore_head_digit _ h
        rw [List.cons.injEq] at heq
        exact heq.1 ▸ hdig
      have hplus : d ≠ '+' := (digit_not_signs d hdig).2.1
      show (if (d = '-' || d = '+') = true then floatShapeCore t
        else floatShapeCore (d :: t)) = true
      rw [if_neg (by simp [hd, hplus])]
      exact floatShapeCore_of_core (d :: t) h

theorem pyFloat_of_numShape (n : List Char) (h : numShape n = true) :
    pyFloat n = .ok (decVal n) := by
  unfold pyFloat
  rw [if_pos (floatShape_of_numShape n h)]

theorem pyFloat_error_ve (cs : List Char) (e : PyErr) (h : pyFloat cs = .error e) :
    e = .valueError := by
  unfold pyFloat at h
  split at h
  · exact absurd h (by simp)
  · cases h
    rfl

/-! ## Characterizing `_is_coordinate_pair` -/

theorem is_coordinate_pairE_none (s : String)
    (hg : coordGroups (cleanCode s.data) = none) :
    is_coordinate_pairE s = .ok none := by
  unfold is_coordinate_pairE
  rw [hg]

theorem is_coordinate_pairE_eval (s : String) (g1 g2 : List Char)
    (hg : coordGroups (cleanCode s.data) = some (g1, g2)) :
    is_coordinate_pairE s =
      .ok (if -90 ≤ decVal g1 ∧ decVal g1 ≤ 90 ∧ -180 ≤ decVal g2 ∧ decVal g2 ≤ 180
           then some (decVal g1, decVal g2) else none) := by
  obtain ⟨sp, -, h1, -, -, h2⟩ := (coordGroups_eq_some_iff _ g1 g2).mp hg
  unfold is_coordinate_pairE
  rw [hg]
  simp only [pyFloat_of_numShape g1 h1, pyFloat_of_numShape g2 h2]

theorem is_coordinate_pair_none (s : String)
    (hg : coordGroups (cleanCode s.data) = none) :
    is_coordinate_pair s = none := by
  unfold is_coordinate_pair
  rw [is_coordinate_pairE_none s hg]

theorem is_coordinate_pair_eq (s : String) (g1 g2 : List Char)
    (hg : coordGroups (cleanCode s.data) = some (g1, g2)) :
    is_coordinate_pair s =
      (if -90 ≤ decVal g1 ∧ decVal g1 ≤ 90 ∧ -180 ≤ decVal g2 ∧ decVal g2 ≤ 180
       then some (decVal g1, decVal g2) else none) := by
  unfold is_coordinate_pair
  rw [is_coordinate_pairE_eval s g1 g2 hg]

theorem is_coordinate_pairE_ok (s : String) :
    is_coordinate_pairE s = .ok (is_coordinate_pair s) := by
  rcases hg : coordGroups (cleanCode s.data) with _ | ⟨⟨g1, g2⟩⟩
  · rw [is_coordinate_pairE_none s hg, is_coordinate_pair_none s hg]
  · rw [is_coordinate_pairE_eval s g1 g2 hg, is_coordinate_pair_eq s g1 g2 hg]

theorem is_coordinate_pair_some_iff (s : String) (la lo : ℚ) :
    is_coordinate_pair s = some (la, lo) ↔
      ∃ g1 g2, coordGroups (cleanCode s.data) = some (g1, g2) ∧
        la = decVal g1 ∧ lo = decVal g2 ∧
        (-90 ≤ la ∧ la ≤ 90 ∧ -180 ≤ lo ∧ lo ≤ 180) := by
  constructor
  · intro h
    rcases hg : coordGroups (cleanCode s.data) with _ | ⟨⟨g1, g2⟩⟩
    · rw [is_coordinate_pair_none s hg] at h
      exact absurd h (by simp)
    · rw [is_coordinate_pair_eq s g1 g2 hg] at h
      split at h
      · rename_i hr
        simp only [Option.some.injEq, Prod.mk.injEq] at h
        exact ⟨g1, g2, rfl, h.1.symm, h.2.symm, by rw [← h.1, ← h.2]; exact hr⟩
      · exact absurd h (by simp)
  · rintro ⟨g1, g2, hg, rfl, rfl, hr⟩
    rw [is_coordinate_pair_eq s g1 g2 hg, if_pos hr]

/-! ## The tiers of `get_coordinates` -/

theorem get_coordinatesE_coord (o : NetOutcome) (s : String) (p : ℚ × ℚ)
    (h : is_coordinate_pair s = some p) : get_coordinatesE o s = .ok p := by
  unfold get_coordinatesE
  rw [is_coordinate_pairE_ok s, h]

theorem get_coordinatesE_net (o : NetOutcome) (s : String) (p : ℚ × ℚ)
    (h1 : is_coordinate_pair s = none) (h2 : geocode_nominatim o = some p) :
    get_coordinatesE o s = .ok p := by
  unfold get_coordinatesE
  rw [is_coordinate_pairE_ok s, h1]
  show (match geocode_nominatim o with
    | some p => Except.ok p
    | none => Except.ok (cityFallback s)) = Except.ok p
  rw [h2]

theorem get_coordinatesE_city (o : NetOutcome) (s : String)
    (h1 : is_coordinate_pair s = none) (h2 : geocode_nominatim o = none) :
    get_coordinatesE o s = .ok (cityFallback s) := by
  unfold get_coordinatesE
  rw [is_coordinate_pairE_ok s, h1]
  show (match geocode_nominatim o with
    | some p => Except.ok p
    | none => Except.ok (cityFallback s)) = Except.ok (cityFallback s)
  rw [h2]

theorem get_coordinatesE_ok (o : NetOutcome) (s : String) :
    ∃ p, get_coordinatesE o s = .ok p := by
  rcases hc : is_coordinate_pair s with _ | p
  · rcases hn : geocode_nominatim o with _ | p
    · exact ⟨_, get_coordinatesE_city o s hc hn⟩
    · exact ⟨p, get_coordinatesE_net o s p hc hn⟩
  · exact ⟨p, get_coordinatesE_coord o s p hc⟩

/-! ## Evaluating `decVal` on concrete literals -/

theorem decVal_neg (r : List Char) : decVal ('-' :: r) = - decValCore r := by
  show (if ('-' : Char) = '-' then - decValCore r
    else if ('-' : Char) = '+' then decValCore r else decValCore ('-' :: r)) = _
  rw [if_pos rfl]

theorem decVal_nosign (c : Char) (r : List Char) (h1 : c ≠ '-') (h2 : c ≠ '+') :
    decVal (c :: r) = decValCore (c :: r) := by
  show (if c = '-' then - decValCore r
    else if c = '+' then decValCore r else decValCore (c :: r)) = _
  rw [if_neg h1, if_neg h2]

theorem decValCore_eval (r ds fs : List Char) (a b k : ℕ)
    (h1 : r.takeWhile isDigitC = ds)
    (h2 : ((r.dropWhile isDigitC).drop 1).takeWhile isDigitC = fs)
    (h3 : digitsVal ds = a) (h4 : digitsVal fs = b) (h5 : fs.length = k) :
    decValCore r = (a : ℚ) + (b : ℚ) / 10 ^ k := by
  show (digitsVal (r.takeWhile isDigitC) : ℚ) +
    (digitsVal (((r.dropWhile isDigitC).drop 1).takeWhile isDigitC) : ℚ) /
      (10 ^ (((r.dropWhile isDigitC).drop 1).takeWhile isDigitC).length) = _
  rw [h1, h2, h3, h4, h5]

/-! ## The resolution step of `run` -/

theorem pyTruthyQ_some (x : Option ℚ) (h : pyTruthyQ x = true) : ∃ q, x = some q := by
  cases x with
  | none => simp [pyTruthyQ] at h
  | some q => exact ⟨q, rfl⟩

theorem resolveStep_skip (o : NetOutcome) (pr : ParsedRequest)
    (h1 : pyTruthyQ pr.latitude = true) (h2 : pyTruthyQ pr.longitude = true) :
    resolveStep o pr = .ok pr := by
  unfold resolveStep
  rw [h1, h2]
  rfl

theorem resolveStep_fill (o : NetOutcome) (pr : ParsedRequest)
    (h : (!pyTruthyQ pr.latitude || !pyTruthyQ pr.longitude) = true) :
    ∃ la lo, get_coordinatesE o (pr.location.getD ("London")) = .ok (la, lo) ∧
      resolveStep o pr = .ok { pr with latitude := some la, longitude := some lo } := by
  obtain ⟨⟨la, lo⟩, hg⟩ := get_coordinatesE_ok o (pr.location.getD ("London"))
  refine ⟨la, lo, hg, ?_⟩
  unfold resolveStep
  rw [if_pos h, hg]

/-! ## Slices and finds, Python versus natural-number form -/

theorem pySlice_nonneg (cs : List Char) (i j : Nat) :
    pySlice cs (i : Int) (j : Int) = sliceN cs i j := by
  unfold pySlice
  rw [if_neg (by omega), if_neg (by omega)]
  simp

theorem pySlice_neg_one (cs : List Char) (i : Nat) :
    pySlice cs (i : Int) (-1) = (cs.take (cs.length - 1)).drop i := by
  unfold pySlice
  rw [if_neg (by omega), if_pos (by omega)]
  have h : (max ((cs.length : Int) + (-1)) 0).toNat = cs.length - 1 := by omega
  rw [h]
  simp [sliceN]

theorem pyFind_some (hay needle : List Char) (start i : Nat)
    (h : findSub hay needle start = some i) : pyFind hay needle start = (i : Int) := by
  unfold pyFind
  rw [h]

theorem pyFind_none (hay needle : List Char) (start : Nat)
    (h : findSub hay needle start = none) : pyFind hay needle start = -1 := by
  unfold pyFind
  rw [h]

theorem pyRfind_some (hay needle : List Char) (j : Nat)
    (h : rfindFrom needle hay = some j) : pyRfind hay needle = (j : Int) := by
  unfold pyRfind
  rw [h]

theorem pyRfind_none (hay needle : List Char)
    (h : rfindFrom needle hay = none) : pyRfind hay needle = -1 := by
  unfold pyRfind
  rw [h]

/-! ## The fence-removal step -/

theorem fencePy_json_closed (c : List Char) (i e : Nat)
    (h1 : findSub c fenceJsonL 0 = some i) (h2 : findSub c fence3L (i + 7) = some e) :
    fencePy c = pystrip (sliceN c (i + 7) e) := by
  unfold fencePy
  rw [h1]
  show pystrip (pySlice c ((i : Int) + 7) (pyFind c fence3L (i + 7))) = _
  rw [pyFind_some c fence3L (i + 7) e h2]
  have hcast : ((i : Int) + 7) = ((i + 7 : Nat) : Int) := by push_cast; ring
  rw [hcast, pySlice_nonneg]

theorem fencePy_json_unclosed (c : List Char) (i : Nat)
    (h1 : findSub c fenceJsonL 0 = some i) (h2 : findSub c fence3L (i + 7) = none) :
    fencePy c = pystrip ((c.take (c.length - 1)).drop (i + 7)) := by
  unfold fencePy
  rw [h1]
  show pystrip (pySlice c ((i : Int) + 7) (pyFind c fence3L (i + 7))) = _
  rw [pyFind_none c fence3L (i + 7) h2]
  have hcast : ((i : Int) + 7) = ((i + 7 : Nat) : Int) := by push_cast; ring
  rw [hcast, pySlice_neg_one]

theorem fencePy_plain_closed (c : List Char) (i e : Nat)
    (h0 : findSub c fenceJsonL 0 = none)
    (h1 : findSub c fence3L 0 = some i) (h2 : findSub c fence3L (i + 3) = some e) :
    fencePy c = pystrip (sliceN c (i + 3) e) := by
  unfold fencePy
  rw [h0, h1]
  show pystrip (pySlice c ((i : Int) + 3) (pyFind c fence3L (i + 3))) = _
  rw [pyFind_some c fence3L (i + 3) e h2]
  have hcast : ((i : Int) + 3) = ((i + 3 : Nat) : Int) := by push_cast; ring
  rw [hcast, pySlice_nonneg]

theorem fencePy_plain_unclosed (c : List Char) (i : Nat)
    (h0 : findSub c fenceJsonL 0 = none)
    (h1 : findSub c fence3L 0 = some i) (h2 : findSub c fence3L (i + 3) = none) :
    fencePy c = pystrip ((c.take (c.length - 1)).drop (i + 3)) := by
  unfold fencePy
  rw [h0, h1]
  show pystrip (pySlice c ((i : Int) + 3) (pyFind c fence3L (i + 3))) = _
  rw [pyFind_none c fence3L (i + 3) h2]
  have hcast : ((i : Int) + 3) = ((i + 3 : Nat) : Int) := by push_cast; ring
  rw [hcast, pySlice_neg_one]

theorem fencePy_nofence (c : List Char)
    (h0 : findSub c fenceJsonL 0 = none) (h1 : findSub c fence3L 0 = none) :
    fencePy c = c := by
  unfold fencePy
  rw [h0, h1]

/-! ## The brace step -/

theorem bracePy_eq_braceStep (c : List Char) : bracePy c = braceStep c := by
  unfold bracePy braceStep
  rcases hf : findSub c ['{'] 0 with _ | i
  · rfl
  · rcases hr : rfindFrom ['}'] c with _ | j
    · show (if (i : Int) < pyRfind c ['}'] + 1
        then pySlice c (i : Int) (pyRfind c ['}'] + 1) else c) = c
      rw [pyRfind_none c ['}'] hr, if_neg (by omega)]
    · show (if (i : Int) < pyRfind c ['}'] + 1
          then pySlice c (i : Int) (pyRfind c ['}'] + 1) else c) =
        (if i ≤ j then sliceN c i (j + 1) else c)
      rw [pyRfind_some c ['}'] j hr]
      by_cases hij : i ≤ j
      · rw [if_pos (by omega), if_pos hij]
        have hcast : ((j : Int) + 1) = ((j + 1 : Nat) : Int) := by push_cast; ring
        rw [hcast, pySlice_nonneg]
      · rw [if_neg (by omega), if_neg hij]

/-! ## Stripping and locating braces -/

theorem pystrip_wrap (ws1 c ws2 : List Char)
    (hw1 : ∀ x ∈ ws1, isPySpace x = true) (hw2 : ∀ x ∈ ws2, isPySpace x = true)
    (hne : c ≠ [])
    (hhead : ∀ x, c.head? = some x → isPySpace x = false)
    (hlast : ∀ x, c.getLast? = some x → isPySpace x = false) :
    pystrip (ws1 ++ c ++ ws2) = c := by
  unfold pystrip
  have hh : ∀ x, (c ++ ws2).head? = some x → isPySpace x = false := by
    intro x hx
    rcases c with _ | ⟨c0, ct⟩
    · exact absurd rfl hne
    · simp only [List.cons_append, List.head?_cons, Option.some.injEq] at hx
      subst hx
      exact hhead c0 rfl
  rw [List.append_assoc, dropWhile_append_all _ _ _ hw1 hh, List.reverse_append]
  have hrev : ∀ x ∈ ws2.reverse, isPySpace x = true := by
    intro x hx
    exact hw2 x (by simpa using hx)
  have hrh : ∀ x, c.reverse.head? = some x → isPySpace x = false := by
    intro x hx
    rw [List.head?_reverse] at hx
    exact hlast x hx
  rw [dropWhile_append_all _ _ _ hrev hrh, List.reverse_reverse]

theorem pystrip_clean (c : List Char)
    (hne : c ≠ [])
    (hhead : ∀ x, c.head? = some x → isPySpace x = false)
    (hlast : ∀ x, c.getLast? = some x → isPySpace x = false) :
    pystrip c = c := by
  have := pystrip_wrap [] c [] (by intro x hx; simp at hx) (by intro x hx; simp at hx)
    hne hhead hlast
  simpa using this

theorem findSub_zero_of_head (cs : List Char) (c : Char) (h : cs.head? = some c) :
    findSub cs [c] 0 = some 0 := by
  rcases cs with _ | ⟨d, t⟩
  · simp at h
  · simp only [List.head?_cons, Option.some.injEq] at h
    subst h
    simp [findSub, findFrom, List.isPrefixOf]

theorem rfindFrom_last (cs : List Char) (c : Char) (h : cs.getLast? = some c) :
    rfindFrom [c] cs = some (cs.length - 1) := by
  induction cs with
  | nil => simp at h
  | cons d t ih =>
    rcases t with _ | ⟨e, u⟩
    · simp only [List.getLast?_singleton, Option.some.injEq] at h
      subst h
      simp [rfindFrom, findFrom, List.isPrefixOf]
    · have hlast : (e :: u).getLast? = some c := by
        rw [← h]
        exact List.getLast?_cons_cons.symm
      have := ih hlast
      unfold rfindFrom
      rw [this]
      simp

theorem braceStep_full (c : List Char) (hne : c ≠ [])
    (hhead : c.head? = some '{') (hlast : c.getLast? = some '}') :
    braceStep c = c := by
  unfold braceStep
  rw [findSub_zero_of_head c '{' hhead, rfindFrom_last c '}' hlast]
  show (if 0 ≤ c.length - 1 then sliceN c 0 (c.length - 1 + 1) else c) = c
  rw [if_pos (Nat.zero_le _)]
  have hlen : c.length - 1 + 1 = c.length := by
    rcases c with _ | ⟨d, t⟩
    · exact absurd rfl hne
    · simp
  rw [hlen]
  simp [sliceN]

theorem findFrom_isSome_mono (n2 t : List Char) : ∀ hay : List Char,
    (findFrom (n2 ++ t) hay).isSome = true → (findFrom n2 hay).isSome = true := by
  intro hay
  induction hay with
  | nil =>
    intro h
    unfold findFrom at h ⊢
    split at h
    · rename_i he
      simp only [List.isEmpty_iff, List.append_eq_nil] at he
      rw [if_pos (by simp [List.isEmpty_iff, he.1])]
      rfl
    · simp at h
  | cons c rest ih =>
    intro h
    unfold findFrom at h ⊢
    by_cases hp2 : n2.isPrefixOf (c :: rest) = true
    · rw [if_pos hp2]
      rfl
    · rw [if_neg hp2]
      by_cases hp : (n2 ++ t).isPrefixOf (c :: rest) = true
      · exfalso
        rw [isPrefixOf_exists] at hp
        obtain ⟨u, hu⟩ := hp
        rw [List.append_assoc] at hu
        exact hp2 ((isPrefixOf_exists n2 (c :: rest)).mpr ⟨t ++ u, hu⟩)
      · rw [if_neg hp] at h
        have := ih (by simpa using h)
        simpa using this

theorem findSub_none_mono (c n2 t : List Char) (h : findSub c n2 0 = none) :
    findSub c (n2 ++ t) 0 = none := by
  rcases hfind : findSub c (n2 ++ t) 0 with _ | v
  · rfl
  · exfalso
    unfold findSub at h hfind
    simp only [Option.map_eq_none'] at h
    have h1 : (findFrom (n2 ++ t) (c.drop 0)).isSome = true := by
      rw [Option.isSome_iff_exists]
      rcases hff : findFrom (n2 ++ t) (c.drop 0) with _ | w
      · rw [hff] at hfind
        simp at hfind
      · exact ⟨w, rfl⟩
    have h2 := findFrom_isSome_mono n2 t (c.drop 0) h1
    rw [h] at h2
    simp at h2

/-! ## The spec-side candidate equals the code's fence step on closed fences -/

theorem fencePy_eq_spec (c : List Char) (h : fenceClosedOk c = true) :
    fencePy c = specCandidate c := by
  rcases h0 : findSub c fenceJsonL 0 with _ | i
  · rcases h1 : findSub c fence3L 0 with _ | i
    · rw [fencePy_nofence c h0 h1]
      unfold specCandidate
      rw [h0, h1]
    · have hcl : (findSub c fence3L (i + 3)).isSome = true := by
        unfold fenceClosedOk at h
        rw [h0, h1] at h
        simpa using h
      obtain ⟨e, he⟩ := Option.isSome_iff_exists.mp hcl
      rw [fencePy_plain_closed c i e h0 h1 he]
      unfold specCandidate
      rw [h0, h1]
      show pystrip (sliceN c (i + 3) e) = (match findSub c fence3L (i + 3) with
        | some j => pystrip (sliceN c (i + 3) j)
        | none => ([] : List Char))
      rw [he]
  · have hcl : (findSub c fence3L (i + 7)).isSome = true := by
      unfold fenceClosedOk at h
      rw [h0] at h
      simpa using h
    obtain ⟨e, he⟩ := Option.isSome_iff_exists.mp hcl
    rw [fencePy_json_closed c i e h0 he]
    unfold specCandidate
    rw [h0]
    show pystrip (sliceN c (i + 7) e) = (match findSub c fence3L (i + 7) with
      | some j => pystrip (sliceN c (i + 7) j)
      | none => ([] : List Char))
    rw [he]

/-! ## `_extract_json` on a bare object -/

theorem extractJson_bare (ws1 c ws2 : List Char)
    (hw1 : ∀ x ∈ ws1, isPySpace x = true) (hw2 : ∀ x ∈ ws2, isPySpace x = true)
    (hne : c ≠ []) (hhead : c.head? = some '{') (hlast : c.getLast? = some '}')
    (hfence : findSub c fence3L 0 = none) :
    extractJson (ws1 ++ c ++ ws2) = c := by
  unfold extractJson
  have hstrip : pystrip (ws1 ++ c ++ ws2) = c := by
    refine pystrip_wrap ws1 c ws2 hw1 hw2 hne ?_ ?_
    · intro x hx
      rw [hhead] at hx
      simp only [Option.some.injEq] at hx
      subst hx
      decide
    · intro x hx
      rw [hlast] at hx
      simp only [Option.some.injEq] at hx
      subst hx
      decide
  have hjson : findSub c fenceJsonL 0 = none := by
    have hfj : fenceJsonL = fence3L ++ ['j', 's', 'o', 'n'] := rfl
    rw [hfj]
    exact findSub_none_mono c fence3L ['j', 's', 'o', 'n'] hfence
  rw [hstrip, fencePy_nofence c hjson hfence, bracePy_eq_braceStep,
    braceStep_full c hne hhead hlast]

/-! # Claim theorems -/

/-- C1 (counterexample): the claim as stated is false.  The input
`"4(0, 50"` has an interior parenthesis, so after stripping only the
surrounding whitespace and parentheses it does not match the coordinate
pattern — by the claim `_is_coordinate_pair` should return `None` — yet
the code removes parentheses everywhere and returns `(40, 50)`. -/
theorem coordinate_pattern_counterexample :
    is_coordinate_pair ("4(0, 50") = some (40, 50) ∧
    ¬ CoordPatternDecl (cleanSurround (("4(0, 50") : String).data) 40 50 := by
  constructor
  · have hg : coordGroups (cleanCode (("4(0, 50") : String).data) =
        some (['4', '0'], ['5', '0']) := by decide
    have hv1 : decVal ['4', '0'] = (40 : ℚ) := by
      rw [decVal_nosign '4' _ (by decide) (by decide),
        decValCore_eval _ ['4', '0'] [] 40 0 0 (by decide) (by decide) (by decide)
          (by decide) (by decide)]
      norm_num
    have hv2 : decVal ['5', '0'] = (50 : ℚ) := by
      rw [decVal_nosign '5' _ (by decide) (by decide),
        decValCore_eval _ ['5', '0'] [] 50 0 0 (by decide) (by decide) (by decide)
          (by decide) (by decide)]
      norm_num
    rw [is_coordinate_pair_eq _ _ _ hg, hv1, hv2, if_pos (by norm_num)]
  · rintro ⟨n1, sp, n2, hcs, hsh1, hne, hsep, hsh2, -, -⟩
    have hsome := (coordGroups_eq_some_iff
      (cleanSurround (("4(0, 50") : String).data) n1 n2).mpr ⟨sp, hcs, hsh1, hne, hsep, hsh2⟩
    have hnone : coordGroups (cleanSurround (("4(0, 50") : String).data) = none := by decide
    rw [hnone] at hsome
    exact absurd hsome (by simp)

/-- C1 (amended): for every input string, after stripping surrounding
whitespace and removing every parenthesis (anywhere in the string, as
`replace` does), `_is_coordinate_pair` returns `some (lat, lon)` exactly
when the cleaned text decomposes as a signed decimal, a non-empty
comma/whitespace separator block, and a second signed decimal, whose
decimal values are `lat` and `lon` with `lat ∈ [-90, 90]` and
`lon ∈ [-180, 180]`; on every other string it returns `none`. -/
theorem coordinate_pattern_characterization (s : String) (la lo : ℚ) :
    is_coordinate_pair s = some (la, lo) ↔
      (CoordPatternDecl (cleanCode s.data) la lo ∧
        -90 ≤ la ∧ la ≤ 90 ∧ -180 ≤ lo ∧ lo ≤ 180) := by
  rw [is_coordinate_pair_some_iff]
  constructor
  · rintro ⟨g1, g2, hg, hla, hlo, hr⟩
    obtain ⟨sp, hcs, h1, hne, hsep, h2⟩ := (coordGroups_eq_some_iff _ g1 g2).mp hg
    exact ⟨⟨g1, sp, g2, hcs, h1, hne, hsep, h2, hla, hlo⟩, hr⟩
  · rintro ⟨⟨n1, sp, n2, hcs, h1, hne, hsep, h2, hla, hlo⟩, hr⟩
    exact ⟨n1, n2, (coordGroups_eq_some_iff _ n1 n2).mpr ⟨sp, hcs, h1, hne, hsep, h2⟩,
      hla, hlo, hr⟩

/-- C1 witness: the amended characterization at the concrete input
`"(40, 50)"`, whose surrounding parentheses are stripped and which parses
to `(40, 50)`. -/
theorem coordinate_pattern_characterization_witness :
    is_coordinate_pair ("(40, 50)") = some (40, 50) := by
  have hv1 : decVal ['4', '0'] = (40 : ℚ) := by
    rw [decVal_nosign '4' _ (by decide) (by decide),
      decValCore_eval _ ['4', '0'] [] 40 0 0 (by decide) (by decide) (by decide)
        (by decide) (by decide)]
    norm_num
  have hv2 : decVal ['5', '0'] = (50 : ℚ) := by
    rw [decVal_nosign '5' _ (by decide) (by decide),
      decValCore_eval _ ['5', '0'] [] 50 0 0 (by decide) (by decide) (by decide)
        (by decide) (by decide)]
    norm_num
  exact (coordinate_pattern_characterization ("(40, 50)") 40 50).mpr
    ⟨⟨['4', '0'], [',', ' '], ['5', '0'], by decide, by decide, by decide,
      by decide, by decide, hv1.symm, hv2.symm⟩, by norm_num⟩

/-- C2: totality of location resolution — for every input string and every
behaviour of the live lookup, `_is_coordinate_pair` returns normally (no
exception escapes its `try/except`), and `get_coordinates` returns
normally with some latitude/longitude pair. -/
theorem resolution_totality (s : String) (o : NetOutcome) :
    (∃ r, is_coordinate_pairE s = .ok r) ∧
    (∃ la lo, get_coordinatesE o s = .ok (la, lo)) := by
  refine ⟨⟨_, is_coordinate_pairE_ok s⟩, ?_⟩
  obtain ⟨⟨la, lo⟩, h⟩ := get_coordinatesE_ok o s
  exact ⟨la, lo, h⟩

/-- C3: tier-1 short-circuit as noninterference — when the coordinate
matcher recognizes the input, `get_coordinates` returns that pair and its
result is identical under any two behaviours of the live lookup (the
network cannot influence it). -/
theorem tier1_noninterference (s : String) (la lo : ℚ)
    (h : is_coordinate_pair s = some (la, lo)) (o o' : NetOutcome) :
    get_coordinatesE o s = .ok (la, lo) ∧
    get_coordinatesE o s = get_coordinatesE o' s := by
  refine ⟨get_coordinatesE_coord o s _ h, ?_⟩
  rw [get_coordinatesE_coord o s _ h, get_coordinatesE_coord o' s _ h]

/-- C3 witness: the input `"40.7128, -74.0060"` resolves to exactly
`(40.7128, -74.0060)` under a raising network. -/
theorem tier1_noninterference_witness :
    is_coordinate_pair ("40.7128, -74.0060") = some (40.7128, -74.0060) ∧
    get_coordinatesE NetOutcome.raise ("40.7128, -74.0060") = .ok (40.7128, -74.0060) := by
  have hg : coordGroups (cleanCode (("40.7128, -74.0060") : String).data) =
      some (['4', '0', '.', '7', '1', '2', '8'], ['-', '7', '4', '.', '0', '0', '6', '0']) := by
    decide
  have hv1 : decVal ['4', '0', '.', '7', '1', '2', '8'] = (40.7128 : ℚ) := by
    rw [decVal_nosign '4' _ (by decide) (by decide),
      decValCore_eval _ ['4', '0'] ['7', '1', '2', '8'] 40 7128 4 (by decide) (by decide)
        (by decide) (by decide) (by decide)]
    norm_num
  have hv2 : decVal ['-', '7', '4', '.', '0', '0', '6', '0'] = (-74.0060 : ℚ) := by
    rw [decVal_neg,
      decValCore_eval _ ['7', '4'] ['0', '0', '6', '0'] 74 60 4 (by decide) (by decide)
        (by decide) (by decide) (by decide)]
    norm_num
  have hc : is_coordinate_pair ("40.7128, -74.0060") = some (40.7128, -74.0060) := by
    rw [is_coordinate_pair_eq _ _ _ hg, hv1, hv2, if_pos (by norm_num)]
  exact ⟨hc, (tier1_noninterference ("40.7128, -74.0060") _ _ hc NetOutcome.raise
    (NetOutcome.results [])).1⟩

/-- C4: offline fallback tiers — when the matcher does not recognize the
input and the live lookup yields no coordinate, `get_coordinates` returns
the first matching entry of the ordered ten-city table (via
`cityFallback`), and London `(51.5074, -0.1278)` when no city name is a
substring of the lowercased input. -/
theorem offline_fallback_tiers (s : String) (o : NetOutcome)
    (h1 : is_coordinate_pair s = none) (h2 : geocode_nominatim o = none) :
    get_coordinatesE o s = .ok (cityFallback s) ∧
    ((∀ e ∈ majorCities, containsSub (lowerChars s.data) e.1.data = false) →
      get_coordinatesE o s = .ok (51.5074, -0.1278)) := by
  refine ⟨get_coordinatesE_city o s h1 h2, fun hno => ?_⟩
  rw [get_coordinatesE_city o s h1 h2]
  unfold cityFallback
  rw [List.find?_eq_none.mpr (fun e he => by rw [hno e he]; simp)]

/-- C4 witness: `"weather in tokyo"` with a raising network falls through
to the city table and yields Tokyo's coordinates. -/
theorem offline_fallback_tiers_witness :
    is_coordinate_pair ("weather in tokyo") = none ∧
    geocode_nominatim NetOutcome.raise = none ∧
    get_coordinatesE NetOutcome.raise ("weather in tokyo") = .ok (35.6762, 139.6503) := by
  have h1 : is_coordinate_pair ("weather in tokyo") = none := by decide
  have h2 : geocode_nominatim NetOutcome.raise = none := rfl
  refine ⟨h1, h2, ?_⟩
  rw [(offline_fallback_tiers ("weather in tokyo") NetOutcome.raise h1 h2).1]
  rfl

/-- C5: the LLM response parser selects the candidate text (between the
fence markers when a marked or plain fence is present and closed, the full
stripped reply otherwise) and returns the inclusive slice of that
candidate from its first `{` to its last `}`. -/
theorem llm_parser_extraction (r : String) (i j : Nat)
    (h1 : fenceClosedOk (pystrip r.data) = true)
    (h2 : findSub (specCandidate (pystrip r.data)) ['{'] 0 = some i)
    (h3 : rfindFrom ['}'] (specCandidate (pystrip r.data)) = some j)
    (h4 : i ≤ j) :
    extract_json r = String.mk (sliceN (specCandidate (pystrip r.data)) i (j + 1)) := by
  unfold extract_json extractJson
  rw [fencePy_eq_spec _ h1, bracePy_eq_braceStep]
  unfold braceStep
  rw [h2, h3]
  show String.mk (if i ≤ j then sliceN (specCandidate (pystrip r.data)) i (j + 1)
    else specCandidate (pystrip r.data)) = _
  rw [if_pos h4]

/-- C5 witness: the reply of the claim, with a marked fence around the
JSON object and prose on both sides, extracts exactly the object. -/
theorem llm_parser_extraction_witness :
    fenceClosedOk (pystrip (("Here you go:\n```json\n\x7b\"location\":\"Paris\",\"weather_type\":\"current\"\x7d\n```\nEnjoy!") : String).data) = true ∧
    extract_json ("Here you go:\n```json\n\x7b\"location\":\"Paris\",\"weather_type\":\"current\"\x7d\n```\nEnjoy!") =
      ("\x7b\"location\":\"Paris\",\"weather_type\":\"current\"\x7d") := by
  refine ⟨by decide, ?_⟩
  rw [llm_parser_extraction
    ("Here you go:\n```json\n\x7b\"location\":\"Paris\",\"weather_type\":\"current\"\x7d\n```\nEnjoy!")
    0 44 (by decide) (by decide) (by decide) (by decide)]
  decide

/-- C6: fallback on undecodable model output — on the LLM-assisted path,
whenever the decode of the extracted candidate fails, `parse_user_request`
returns the fixed fallback dictionary: weather_type `"current"`,
specific_requirements equal to the raw user input, absent coordinates, and
the raw reply attached. -/
theorem fallback_on_undecodable (dec : String → Option ParsedRequest)
    (llm : String → String) (user : String)
    (h1 : is_coordinate_pair user = none)
    (h2 : dec (extract_json (llm user)) = none) :
    parse_user_request dec llm user =
      { location := some ("unknown"), latitude := none, longitude := none,
        weather_type := some ("current"), specific_requirements := some user,
        raw_response := some (llm user) } := by
  unfold parse_user_request
  rw [h1]
  show (match dec (extract_json (llm user)) with
    | some pr => pr
    | none =>
      { location := some ("unknown"), latitude := none, longitude := none,
        weather_type := some ("current"), specific_requirements := some user,
        raw_response := some (llm user) }) = _
  rw [h2]

/-- C6 witness: a reply with no brace pair at all fails to decode and the
fallback dictionary is produced. -/
theorem fallback_on_undecodable_witness :
    is_coordinate_pair ("what is the weather like") = none ∧
    parse_user_request (fun _ => none) (fun _ => ("no json here"))
      ("what is the weather like") =
      { location := some ("unknown"), latitude := none, longitude := none,
        weather_type := some ("current"),
        specific_requirements := some ("what is the weather like"),
        raw_response := some ("no json here") } := by
  have h1 : is_coordinate_pair ("what is the weather like") = none := by decide
  exact ⟨h1, fallback_on_undecodable (fun _ => none) (fun _ => ("no json here"))
    ("what is the weather like") h1 rfl⟩

/-- C7 (counterexample): the claim as stated is false.  The decoded
request `zeroLatRequest` carries latitude `0` and longitude `10` — both
present — so by the claim it should be handed unchanged to the fetch step;
but Python truthiness makes `not 0.0` true, so the resolution step
geocodes the location (`"paris"`) and overwrites both coordinates. -/
theorem coordinates_preserved_counterexample :
    (zeroLatRequest.latitude ≠ none ∧ zeroLatRequest.longitude ≠ none) ∧
    resolveStep NetOutcome.raise zeroLatRequest ≠ .ok zeroLatRequest := by
  constructor
  · exact ⟨by simp [zeroLatRequest], by simp [zeroLatRequest]⟩
  · have hc : is_coordinate_pair ("paris") = none := by decide
    have hg : get_coordinatesE NetOutcome.raise ("paris") = .ok (48.8566, 2.3522) := by
      rw [get_coordinatesE_city NetOutcome.raise ("paris") hc rfl]
      rfl
    have hre : get_coordinatesE NetOutcome.raise
        (zeroLatRequest.location.getD ("London")) = .ok ((48.8566 : ℚ), (2.3522 : ℚ)) := hg
    have hr : resolveStep NetOutcome.raise zeroLatRequest =
        .ok { zeroLatRequest with latitude := some (48.8566 : ℚ), longitude := some (2.3522 : ℚ) } := by
      unfold resolveStep
      rw [if_pos (by decide), hre]
    rw [hr]
    simp only [ne_eq, Except.ok.injEq]
    intro heq
    have hlat := congrArg ParsedRequest.latitude heq
    simp only [zeroLatRequest, Option.some.injEq] at hlat
    norm_num at hlat

/-- C7 (amended): the geocoder is invoked only when latitude or longitude
is absent or zero (Python falsiness); when the decoded request carries
both a non-zero latitude and a non-zero longitude, the resolution step
returns the request untouched — the exact decoded values reach the fetch
step and no other field changes. -/
theorem coordinates_preserved (o : NetOutcome) (pr : ParsedRequest)
    (h1 : pyTruthyQ pr.latitude = true) (h2 : pyTruthyQ pr.longitude = true) :
    resolveStep o pr = .ok pr :=
  resolveStep_skip o pr h1 h2

/-- C7 witness: a request already carrying `(1, 2)` passes through the
resolution step unchanged even under a raising network. -/
theorem coordinates_preserved_witness :
    pyTruthyQ plainRequest.latitude = true ∧
    resolveStep NetOutcome.raise plainRequest = .ok plainRequest :=
  ⟨by decide, coordinates_preserved NetOutcome.raise plainRequest (by decide) (by decide)⟩

/-- C8: pre-fetch resolution invariant — for every decoder and chat-model
behaviour, every user input and every network outcome, the request
produced by interpretation followed by the resolution step reaches the
fetch step with both latitude and longitude populated. -/
theorem prefetch_resolution_invariant (dec : String → Option ParsedRequest)
    (llm : String → String) (user : String) (o : NetOutcome) :
    ∃ pr la lo, resolveStep o (parse_user_request dec llm user) = .ok pr ∧
      pr.latitude = some la ∧ pr.longitude = some lo := by
  by_cases h1 : pyTruthyQ (parse_user_request dec llm user).latitude = true
  · by_cases h2 : pyTruthyQ (parse_user_request dec llm user).longitude = true
    · obtain ⟨la, hla⟩ := pyTruthyQ_some _ h1
      obtain ⟨lo, hlo⟩ := pyTruthyQ_some _ h2
      exact ⟨_, la, lo, resolveStep_skip o _ h1 h2, hla, hlo⟩
    · have h2f : pyTruthyQ (parse_user_request dec llm user).longitude = false := by
        revert h2
        cases pyTruthyQ (parse_user_request dec llm user).longitude <;> simp
      obtain ⟨la, lo, -, hr⟩ :=
        resolveStep_fill o (parse_user_request dec llm user) (by simp [h2f])
      exact ⟨_, la, lo, hr, rfl, rfl⟩
  · have h1f : pyTruthyQ (parse_user_request dec llm user).latitude = false := by
      revert h1
      cases pyTruthyQ (parse_user_request dec llm user).latitude <;> simp
    obtain ⟨la, lo, -, hr⟩ :=
      resolveStep_fill o (parse_user_request dec llm user) (by simp [h1f])
    exact ⟨_, la, lo, hr, rfl, rfl⟩

/-- C9 (counterexample): the claim as stated is false.  The text
`renderObj (.cons "k" (.jstr "```a```") .nil)`, i.e. the bare JSON object
`{"k":"```a```"}` with no surrounding whitespace, contains a markdown
fence marker inside its string value, so `_extract_json` takes the
plain-fence branch and returns `"a"` instead of the object itself. -/
theorem llm_parser_idempotence_counterexample :
    extract_json (renderObj (.cons ("k") (.jstr ("```a```")) .nil)) = ("a") ∧
    renderObj (.cons ("k") (.jstr ("```a```")) .nil) ≠ ("a") := by
  constructor
  · decide
  · decide

/-- C9 (amended): for every bare JSON object whose rendered text contains
no fence marker (three backticks), surrounded by arbitrary whitespace,
`_extract_json` returns the object unchanged modulo that whitespace, is
the identity on the bare object itself, and is therefore idempotent on
such texts. -/
theorem llm_parser_idempotence (ms : JsonMembers) (ws1 ws2 : List Char)
    (hw1 : ∀ x ∈ ws1, isPySpace x = true) (hw2 : ∀ x ∈ ws2, isPySpace x = true)
    (hfence : findSub (renderJ (.jobj ms)) fence3L 0 = none) :
    extract_json (String.mk (ws1 ++ renderJ (.jobj ms) ++ ws2)) = renderObj ms ∧
    extract_json (renderObj ms) = renderObj ms ∧
    extract_json (extract_json (String.mk (ws1 ++ renderJ (.jobj ms) ++ ws2))) =
      extract_json (String.mk (ws1 ++ renderJ (.jobj ms) ++ ws2)) := by
  have hobj : renderJ (.jobj ms) = '{' :: (renderMembers ms ++ ['}']) := rfl
  have hne : renderJ (.jobj ms) ≠ [] := by
    rw [hobj]
    simp
  have hhead : (renderJ (.jobj ms)).head? = some '{' := by
    rw [hobj]
    rfl
  have hlast : (renderJ (.jobj ms)).getLast? = some '}' := by
    rw [hobj, show '{' :: (renderMembers ms ++ ['}']) =
      ('{' :: renderMembers ms) ++ ['}'] from rfl]
    exact List.getLast?_concat _
  have h1 : extract_json (String.mk (ws1 ++ renderJ (.jobj ms) ++ ws2)) = renderObj ms := by
    unfold extract_json renderObj
    congr 1
    exact extractJson_bare ws1 _ ws2 hw1 hw2 hne hhead hlast hfence
  have h2 : extract_json (renderObj ms) = renderObj ms := by
    unfold extract_json renderObj
    congr 1
    have := extractJson_bare [] _ [] (by intro x hx; simp at hx)
      (by intro x hx; simp at hx) hne hhead hlast hfence
    simpa using this
  refine ⟨h1, h2, ?_⟩
  rw [h1]
  exact h2

/-- C9 witness: the bare object `{"location":"Paris"}` with a leading
blank is returned unchanged. -/
theorem llm_parser_idempotence_witness :
    findSub (renderJ (.jobj (.cons ("location") (.jstr ("Paris")) .nil))) fence3L 0 = none ∧
    extract_json (String.mk ([' '] ++ renderJ (.jobj (.cons ("location") (.jstr ("Paris")) .nil)) ++ [])) =
      renderObj (.cons ("location") (.jstr ("Paris")) .nil) := by
  refine ⟨by decide, ?_⟩
  exact (llm_parser_idempotence (.cons ("location") (.jstr ("Paris")) .nil) [' '] []
    (by decide) (by intro x hx; simp at hx) (by decide)).1

/-- C10: unclosed marked fence — when the stripped reply contains
`"```json"` (first at index `i`) but no `"```"` at or after `i + 7`,
Python's `find` returns `-1` and the slice `[i+7 : -1]` cuts the text at
the character before its end; `_extract_json` then applies the usual strip
and brace step to that truncated text. -/
theorem unclosed_fence_truncation (r : String) (i : Nat)
    (h1 : findSub (pystrip r.data) fenceJsonL 0 = some i)
    (h2 : findSub (pystrip r.data) fence3L (i + 7) = none) :
    extract_json r = String.mk (braceStep (pystrip
      (((pystrip r.data).take ((pystrip r.data).length - 1)).drop (i + 7)))) := by
  unfold extract_json extractJson
  rw [fencePy_json_unclosed _ i h1 h2, bracePy_eq_braceStep]

/-- C10 witness: the reply consisting of `"```json"`, a newline and the
object `{"a":1}` with nothing after it loses the closing brace: the result
is `{"a":1` exactly. -/
theorem unclosed_fence_truncation_witness :
    findSub (pystrip (("```json\n\x7b\"a\":1\x7d") : String).data) fenceJsonL 0 = some 0 ∧
    findSub (pystrip (("```json\n\x7b\"a\":1\x7d") : String).data) fence3L 7 = none ∧
    extract_json ("```json\n\x7b\"a\":1\x7d") = ("\x7b\"a\":1") := by
  refine ⟨by decide, by decide, ?_⟩
  rw [unclosed_fence_truncation ("```json\n\x7b\"a\":1\x7d") 0 (by decide) (by decide)]
  decide
